import Mathlib

/-!
Verification development for the MinskyBot run-time core
(`src/devices/feathers2.py`): the `RunStates` life-cycle constants, the
`FeatherS2.run` life-cycle state machine with its fault handler, the timer
registry (`add_timer` and the dictionary of timers), and the `Timer`
scheduling logic (`update` with simulated monotonic time).

Modelling conventions:
* Python integers are modelled as `Int` (arbitrary precision); `Timer.duration`
  is a Python float that only ever holds integral nanosecond values in the
  scenarios considered, so it is modelled as exact `Int` arithmetic.
* `monotonic_ns()` is a parameter: every operation that reads the clock takes
  the reading as an explicit argument (`clock`, `now`, `after`).
* The Python `dict` of timers is an insertion-ordered association list;
  assignment to an existing key replaces the value in place.
* Timer callbacks are opaque user code: a callback is identified by an opaque
  tag (`callback : Nat`), and its only effect visible to the scheduler is the
  time it consumes, which is the gap between the `now` and `after` clock
  readings around the call in `Timer.update`.
-/

namespace MinskyBot

/-- Life-cycle constants from `class RunStates` in `src/devices/feathers2.py`. -/
def RunStates.NOT_STARTED : Nat := 1

def RunStates.STARTING : Nat := 2

def RunStates.INITIALISING : Nat := 3

def RunStates.LOOPING : Nat := 4

def RunStates.DEINITIALISING : Nat := 5

def RunStates.SHUTTING_DOWN : Nat := 6

/-- Python truthiness of the optional `name` argument (`None` and `""` are falsy). -/
def truthy : Option String → Bool
  | none => false
  | some s => decide (s ≠ "")

/-- The `Timer` class state from `src/devices/feathers2.py`. The callback is an
opaque tag; `rtc` records whether a clock source object was attached. -/
structure Timer where
  name : String
  period : Int
  callback : Nat
  rtc : Bool
  trigger_count : Nat
  running : Bool
  paused : Bool
  duration : Int
  before : Int
deriving Repr, DecidableEq

/-- `Timer.__init__`: the class-level `Timer.name_counter` is threaded
explicitly (in, and back out possibly incremented). -/
def Timer.init (period : Int) (callback : Nat) (name : Option String) (rtc : Bool)
    (counter : Nat) : Timer × Nat :=
  if truthy name then
    ({ name := name.getD "", period := period, callback := callback, rtc := rtc,
       trigger_count := 0, running := false, paused := false, duration := 0, before := 0 },
     counter)
  else
    ({ name := "Timer-" ++ toString counter, period := period, callback := callback, rtc := rtc,
       trigger_count := 0, running := false, paused := false, duration := 0, before := 0 },
     counter + 1)

/-- `Timer.reset`: `monotonic_ns()` is passed in as `clock`. -/
def Timer.reset (t : Timer) (clock : Int) : Timer :=
  { t with trigger_count := 0, duration := 0, before := clock }

/-- `Timer.start`. -/
def Timer.start (t : Timer) (clock : Int) : Timer :=
  { Timer.reset t clock with running := true, paused := false }

/-- `Timer.stop`. -/
def Timer.stop (t : Timer) (clock : Int) : Timer :=
  Timer.reset { t with running := false, paused := false } clock

/-- `Timer.pause`. -/
def Timer.pause (t : Timer) : Timer :=
  { t with paused := true }

/-- `Timer.resume`. -/
def Timer.resume (t : Timer) (clock : Int) : Timer :=
  { t with paused := false, before := clock }

/-- `Timer.update`: `now` is the `monotonic_ns()` reading at entry and `after`
the reading taken just after the callback returns. The returned `Bool` records
whether the callback fired on this call. -/
def Timer.update (t : Timer) (now after : Int) : Timer × Bool :=
  if t.running = true ∧ t.paused = false then
    if t.duration + (now - t.before) ≥ t.period * 1000000 then
      ({ t with duration := after - now, trigger_count := t.trigger_count + 1, before := after },
       true)
    else
      ({ t with duration := t.duration + (now - t.before), before := now }, false)
  else
    (t, false)

/-- One simulated `update()` call whose callback consumes no time
(`after = now`). -/
def Timer.step (t : Timer) (now : Int) : Timer :=
  (Timer.update t now now).1

/-- Drive a timer through a sequence of `update()` calls, the simulated
monotonic clock advancing by each listed increment before the corresponding
call; callbacks consume no simulated time. -/
def Timer.drive : Timer → Int → List Int → Timer
  | t, _, [] => t
  | t, clock, d :: ds => Timer.drive (Timer.step t (clock + d)) (clock + d) ds

/-- Lookup in the insertion-ordered association list modelling a Python dict. -/
def dlookup {α : Type} (k : String) : List (String × α) → Option α
  | [] => none
  | (k', v) :: rest => if k' = k then some v else dlookup k rest

/-- Python dict assignment `d[k] = v`: replaces in place if the key exists,
otherwise appends. -/
def dictInsert {α : Type} (k : String) (v : α) : List (String × α) → List (String × α)
  | [] => [(k, v)]
  | (k', v') :: rest => if k' = k then (k, v) :: rest else (k', v') :: dictInsert k v rest

/-- The timer-registry part of the `FeatherS2` state: the `timers` dict plus
the class-level `Timer.name_counter`. -/
structure AppTimers where
  timers : List (String × Timer)
  name_counter : Nat
deriving Repr, DecidableEq

/-- `FeatherS2.add_timer`. -/
def addTimer (st : AppTimers) (period : Int) (callback : Nat) (name : Option String)
    (rtc : Bool) : AppTimers × Option Timer :=
  if truthy name = false ∨ dlookup (name.getD "") st.timers = none then
    let p := Timer.init period callback name rtc st.name_counter
    ({ timers := dictInsert p.1.name p.1 st.timers, name_counter := p.2 }, some p.1)
  else
    (st, none)

/-- `FeatherS2.remove_timer`. -/
def removeTimer (st : AppTimers) (name : String) : AppTimers :=
  if (dlookup name st.timers).isSome then
    { st with timers := st.timers.filter (fun p => decide (p.1 ≠ name)) }
  else
    st

/-- Outcome of one invocation of a user hook (`init`, `loop`, `deinit`):
it completes normally, completes after having called `finish()`, or raises. -/
inductive HookOutcome where
  | ok
  | finishThenOk
  | fault
deriving Repr, DecidableEq

/-- Behaviour oracles for the collaborators `FeatherS2.run` calls into.
`startup` and `shutdown` either complete or raise (`startupFaults`,
`shutdownFaults`); every fallible operation inside `startup` occurs before its
trailing plain assignments (`finished`/`exit_code`/`run_state`/`timers`), which
cannot raise, so a startup fault leaves those unassigned.  `update_timers` is
an oracle per loop iteration (`timersFault`) because any fault it raises comes
from an opaque user timer callback; `loop` and `deinit` are oracles per
iteration / per call number. -/
structure Hooks where
  startupFaults : Bool
  init : HookOutcome
  timersFault : Nat → Bool
  loop : Nat → HookOutcome
  deinit : Nat → HookOutcome
  shutdownFaults : Bool

/-- Observable result of one call to `FeatherS2.run`: the sequence of values
assigned to `self.run_state` (in order), how often each collaborator was
invoked, and the final `finished` / `exit_code` fields (`none` models Python
`None`, i.e. never assigned).  `raised` records whether an exception escaped
`run()` to its caller. -/
structure RunResult where
  states : List Nat
  initCalls : Nat
  timerPasses : Nat
  loopCalls : Nat
  deinitCalls : Nat
  shutdownCalls : Nat
  finished : Option Bool
  exit_code : Option Nat
  raised : Bool
deriving Repr, DecidableEq

/-- How the `while not self.finished` loop of `run()` ended. -/
inductive LoopExit where
  | normal (passes loops : Nat)
  | fault (passes loops : Nat)
deriving Repr, DecidableEq

/-- The `while not self.finished: self.update_timers(); self.loop()` loop,
with `fuel` bounding the number of condition checks (`none` = still looping
when the fuel runs out).  `i` is the 0-based iteration index, `passes` and
`loops` count completed-or-faulting invocations of `update_timers` and the
`loop` hook. -/
def runLoop (tf : Nat → Bool) (lp : Nat → HookOutcome) :
    Nat → Nat → Nat → Nat → Bool → Option LoopExit
  | 0, _, _, _, _ => none
  | fuel + 1, i, passes, loops, finished =>
    if finished then some (LoopExit.normal passes loops)
    else if tf i then some (LoopExit.fault (passes + 1) loops)
    else
      match lp i with
      | HookOutcome.fault => some (LoopExit.fault (passes + 1) (loops + 1))
      | HookOutcome.ok => runLoop tf lp fuel (i + 1) (passes + 1) (loops + 1) false
      | HookOutcome.finishThenOk => runLoop tf lp fuel (i + 1) (passes + 1) (loops + 1) true

/-- The `except Exception` handler of `run()`: `exit_code = run_state`, and if
the fault occurred before `SHUTTING_DOWN` a best-effort `deinit()` call whose
own fault (if any) escapes `run()` uncaught. -/
def runExcept (hk : Hooks) (pre : RunResult) (faultState : Nat) : RunResult :=
  if faultState < RunStates.SHUTTING_DOWN then
    match hk.deinit pre.deinitCalls with
    | HookOutcome.fault =>
      { pre with
        exit_code := some faultState
        deinitCalls := pre.deinitCalls + 1
        raised := true }
    | HookOutcome.finishThenOk =>
      { pre with
        exit_code := some faultState
        deinitCalls := pre.deinitCalls + 1
        finished := some true
        raised := false }
    | HookOutcome.ok =>
      { pre with
        exit_code := some faultState
        deinitCalls := pre.deinitCalls + 1
        raised := false }
  else
    { pre with exit_code := some faultState, raised := false }

/-- The tail of a fault-free `run()` after the normal `deinit()` call
returned: `run_state = SHUTTING_DOWN`, then `shutdown()`, whose fault (if
any) is caught by the handler with no further cleanup pass.  `fin` is the
`finished` flag as possibly modified by the `deinit` hook (it sets
`finished := some true` when the hook called `finish()`). -/
def runTail (hk : Hooks) (r4 : RunResult) (fin : Option Bool) : Option RunResult :=
  let r5 : RunResult :=
    { r4 with
      deinitCalls := 1
      finished := fin
      states := r4.states ++ [RunStates.SHUTTING_DOWN] }
  if hk.shutdownFaults then
    some (runExcept hk { r5 with shutdownCalls := 1 } RunStates.SHUTTING_DOWN)
  else
    some { r5 with shutdownCalls := 1 }

/-- `FeatherS2.run`.  A successful `startup()` performs, after all its fallible
collaborator calls, the plain assignments `finished = False`, `exit_code = 0`,
`run_state = NOT_STARTED`, `timers = {}` — hence the `NOT_STARTED` entry
appended to `states` after `STARTING`.  `fuel` bounds the LOOPING phase;
`none` models a run still looping. -/
def run (fuel : Nat) (hk : Hooks) : Option RunResult :=
  let r0 : RunResult :=
    { states := [RunStates.STARTING]
      initCalls := 0
      timerPasses := 0
      loopCalls := 0
      deinitCalls := 0
      shutdownCalls := 0
      finished := none
      exit_code := none
      raised := false }
  if hk.startupFaults then
    some (runExcept hk r0 RunStates.STARTING)
  else
    let r1 : RunResult :=
      { r0 with
        states := r0.states ++ [RunStates.NOT_STARTED]
        finished := some false
        exit_code := some 0 }
    let r2 : RunResult :=
      { r1 with states := r1.states ++ [RunStates.INITIALISING], initCalls := 1 }
    if hk.init = HookOutcome.fault then
      some (runExcept hk r2 RunStates.INITIALISING)
    else
      let fin0 : Bool := decide (hk.init = HookOutcome.finishThenOk)
      let r3 : RunResult :=
        { r2 with
          states := r2.states ++ [RunStates.LOOPING]
          finished := some fin0 }
      match runLoop hk.timersFault hk.loop fuel 0 0 0 fin0 with
      | none => none
      | some (LoopExit.fault passes loops) =>
        some (runExcept hk { r3 with timerPasses := passes, loopCalls := loops }
          RunStates.LOOPING)
      | some (LoopExit.normal passes loops) =>
        let r4 : RunResult :=
          { r3 with
            timerPasses := passes
            loopCalls := loops
            finished := some true
            states := r3.states ++ [RunStates.DEINITIALISING] }
        match hk.deinit 0 with
        | HookOutcome.fault =>
          some (runExcept hk { r4 with deinitCalls := 1 } RunStates.DEINITIALISING)
        | HookOutcome.finishThenOk => runTail hk r4 (some true)
        | HookOutcome.ok => runTail hk r4 r4.finished

/-- Hooks where nothing faults and the `loop` hook calls `finish()` on its
first iteration. -/
def hkAllOk : Hooks :=
  { startupFaults := false
    init := HookOutcome.ok
    timersFault := fun _ => false
    loop := fun _ => HookOutcome.finishThenOk
    deinit := fun _ => HookOutcome.ok
    shutdownFaults := false }

/-- The timer-update-pass and `loop`-hook invocation counts of a run, read off
the loop phase alone: they do not depend on the `deinit` or `shutdown`
collaborators. -/
def loopCounts (hk : Hooks) (fuel : Nat) : Nat × Nat :=
  if hk.startupFaults = true then (0, 0)
  else if hk.init = HookOutcome.fault then (0, 0)
  else
    match runLoop hk.timersFault hk.loop fuel 0 0 0
        (decide (hk.init = HookOutcome.finishThenOk)) with
    | none => (0, 0)
    | some (LoopExit.fault passes loops) => (passes, loops)
    | some (LoopExit.normal passes loops) => (passes, loops)

/-- The scenario timer of the spec: period 1000 ms, started at simulated
monotonic time 0. -/
def scenarioTimer : Timer :=
  Timer.start (Timer.init 1000 0 (some "T") false 0).1 0

/-- A running unpaused timer of period 1000 ms poised to fire: 900 ms already
accumulated, baseline at 900 ms. -/
def poisedTimer : Timer :=
  { name := "T"
    period := 1000
    callback := 0
    rtc := false
    trigger_count := 0
    running := true
    paused := false
    duration := 900000000
    before := 900000000 }

/-- The full sequence of `run_state` assignments in a fault-free run,
including the backward `STARTING -> NOT_STARTED` re-initialisation performed
inside `startup()`. -/
def lifeSeq : List Nat :=
  [RunStates.STARTING, RunStates.NOT_STARTED, RunStates.INITIALISING, RunStates.LOOPING,
    RunStates.DEINITIALISING, RunStates.SHUTTING_DOWN]

def hkStartupFault : Hooks :=
  { hkAllOk with startupFaults := true }

def hkShutdownFault : Hooks :=
  { hkAllOk with shutdownFaults := true }

def hkFinishInInit : Hooks :=
  { hkAllOk with init := HookOutcome.finishThenOk }

def hkLoopFault : Hooks :=
  { hkAllOk with loop := fun _ => HookOutcome.fault }

/-- Hooks whose `loop` hook calls `finish()` on its second iteration
(0-based index 1). -/
def hkFinishAtTwo : Hooks :=
  { hkAllOk with loop := fun i => if i = 1 then HookOutcome.finishThenOk else HookOutcome.ok }

def C4res : RunResult :=
  { states := [RunStates.STARTING]
    initCalls := 0
    timerPasses := 0
    loopCalls := 0
    deinitCalls := 1
    shutdownCalls := 0
    finished := none
    exit_code := some RunStates.STARTING
    raised := false }

def C5res : RunResult :=
  { states := lifeSeq
    initCalls := 1
    timerPasses := 1
    loopCalls := 1
    deinitCalls := 1
    shutdownCalls := 1
    finished := some true
    exit_code := some RunStates.SHUTTING_DOWN
    raised := false }

def C6res : RunResult :=
  { states := lifeSeq
    initCalls := 1
    timerPasses := 0
    loopCalls := 0
    deinitCalls := 1
    shutdownCalls := 1
    finished := some true
    exit_code := some 0
    raised := false }

def C8res : RunResult :=
  { states := [RunStates.STARTING, RunStates.NOT_STARTED, RunStates.INITIALISING,
      RunStates.LOOPING]
    initCalls := 1
    timerPasses := 1
    loopCalls := 1
    deinitCalls := 1
    shutdownCalls := 0
    finished := some false
    exit_code := some RunStates.LOOPING
    raised := false }

def C9res : RunResult :=
  { states := lifeSeq
    initCalls := 1
    timerPasses := 2
    loopCalls := 2
    deinitCalls := 1
    shutdownCalls := 1
    finished := some true
    exit_code := some 0
    raised := false }

/-- Decidable rendering of the claimed invariant: each state assignment is
greater than or equal to the one before it (the state never moves backward
through the ordinals). -/
def forwardOnly : List Nat → Bool
  | [] => true
  | [_] => true
  | a :: b :: rest => decide (a ≤ b) && forwardOnly (b :: rest)

def regTimerA : Timer :=
  (Timer.init 500 7 (some "A") false 0).1

def regState : AppTimers :=
  { timers := [("A", regTimerA)], name_counter := 0 }

def autoState : AppTimers :=
  { timers := [("Timer-0", regTimerA)], name_counter := 0 }

theorem runExcept_states (hk : Hooks) (pre : RunResult) (s : Nat) :
    (runExcept hk pre s).states = pre.states := by
  unfold runExcept
  split
  · split <;> rfl
  · rfl

theorem runExcept_timerPasses (hk : Hooks) (pre : RunResult) (s : Nat) :
    (runExcept hk pre s).timerPasses = pre.timerPasses := by
  unfold runExcept
  split
  · split <;> rfl
  · rfl

theorem runExcept_loopCalls (hk : Hooks) (pre : RunResult) (s : Nat) :
    (runExcept hk pre s).loopCalls = pre.loopCalls := by
  unfold runExcept
  split
  · split <;> rfl
  · rfl

theorem runExcept_initCalls (hk : Hooks) (pre : RunResult) (s : Nat) :
    (runExcept hk pre s).initCalls = pre.initCalls := by
  unfold runExcept
  split
  · split <;> rfl
  · rfl

theorem runExcept_exit_code (hk : Hooks) (pre : RunResult) (s : Nat) :
    (runExcept hk pre s).exit_code = some s := by
  unfold runExcept
  split
  · split <;> rfl
  · rfl

theorem runExcept_deinitCalls (hk : Hooks) (pre : RunResult) (s : Nat)
    (h : s < RunStates.SHUTTING_DOWN) :
    (runExcept hk pre s).deinitCalls = pre.deinitCalls + 1 := by
  unfold runExcept
  rw [if_pos h]
  split <;> rfl

theorem runExcept_shutdownCalls (hk : Hooks) (pre : RunResult) (s : Nat) :
    (runExcept hk pre s).shutdownCalls = pre.shutdownCalls := by
  unfold runExcept
  split
  · split <;> rfl
  · rfl

theorem runExcept_deinitCalls_done (hk : Hooks) (pre : RunResult) (s : Nat)
    (h : ¬ s < RunStates.SHUTTING_DOWN) :
    (runExcept hk pre s).deinitCalls = pre.deinitCalls := by
  unfold runExcept
  rw [if_neg h]

theorem runExcept_raised_done (hk : Hooks) (pre : RunResult) (s : Nat)
    (h : ¬ s < RunStates.SHUTTING_DOWN) :
    (runExcept hk pre s).raised = false := by
  unfold runExcept
  rw [if_neg h]

theorem runExcept_raised (hk : Hooks) (pre : RunResult) (s : Nat)
    (h : s < RunStates.SHUTTING_DOWN) :
    (runExcept hk pre s).raised = decide (hk.deinit pre.deinitCalls = HookOutcome.fault) := by
  unfold runExcept
  rw [if_pos h]
  cases hd : hk.deinit pre.deinitCalls <;> simp [hd]

/-- Projections of the `runTail` result: `shutdown()` runs once, a fault in it
is caught (exit code `SHUTTING_DOWN`, nothing escapes), otherwise the fields
reaching the caller are those accumulated before. -/
theorem runTail_proj (hk : Hooks) (r4 : RunResult) (fin : Option Bool) (r5 : RunResult)
    (h : runTail hk r4 fin = some r5) :
    r5.states = r4.states ++ [RunStates.SHUTTING_DOWN] ∧
      r5.timerPasses = r4.timerPasses ∧
      r5.loopCalls = r4.loopCalls ∧
      r5.initCalls = r4.initCalls ∧
      r5.deinitCalls = 1 ∧
      r5.shutdownCalls = 1 ∧
      (hk.shutdownFaults = true →
        r5.exit_code = some RunStates.SHUTTING_DOWN ∧ r5.raised = false) ∧
      (hk.shutdownFaults = false → r5.exit_code = r4.exit_code ∧ r5.raised = r4.raised) := by
  unfold runTail at h
  by_cases hsd : hk.shutdownFaults = true
  · rw [if_pos hsd] at h
    injection h with h
    subst h
    refine ⟨runExcept_states hk _ _, runExcept_timerPasses hk _ _,
      runExcept_loopCalls hk _ _, runExcept_initCalls hk _ _, ?_, ?_,
      fun _ => ⟨runExcept_exit_code hk _ _, runExcept_raised_done hk _ _ (by decide)⟩,
      fun hc => absurd hsd (by simp [hc])⟩
    · rw [runExcept_deinitCalls_done hk _ _ (by decide)]
    · rw [runExcept_shutdownCalls]
  · rw [if_neg hsd] at h
    injection h with h
    subst h
    exact ⟨rfl, rfl, rfl, rfl, rfl, rfl, fun hc => absurd hc hsd, fun _ => ⟨rfl, rfl⟩⟩

theorem run_loopCounts (fuel : Nat) (hk : Hooks) (r : RunResult)
    (h : run fuel hk = some r) :
    r.timerPasses = (loopCounts hk fuel).1 ∧ r.loopCalls = (loopCounts hk fuel).2 := by
  simp only [run] at h
  unfold loopCounts
  by_cases hsf : hk.startupFaults = true
  · rw [if_pos hsf] at h ⊢
    injection h with h
    subst h
    rw [runExcept_timerPasses, runExcept_loopCalls]
    exact ⟨rfl, rfl⟩
  · rw [if_neg hsf] at h ⊢
    by_cases hi : hk.init = HookOutcome.fault
    · rw [if_pos hi] at h ⊢
      injection h with h
      subst h
      rw [runExcept_timerPasses, runExcept_loopCalls]
      exact ⟨rfl, rfl⟩
    · rw [if_neg hi] at h ⊢
      cases hrl : runLoop hk.timersFault hk.loop fuel 0 0 0
          (decide (hk.init = HookOutcome.finishThenOk)) with
      | none =>
        rw [hrl] at h
        exact absurd h (by simp)
      | some le =>
        cases le with
        | fault passes loops =>
          simp only [hrl] at h ⊢
          injection h with h
          subst h
          rw [runExcept_timerPasses, runExcept_loopCalls]
          exact ⟨rfl, rfl⟩
        | normal passes loops =>
          simp only [hrl] at h ⊢
          cases hd0 : hk.deinit 0 with
          | ok =>
            simp only [hd0] at h
            obtain ⟨-, h2, h3, -⟩ := runTail_proj hk _ _ r h
            exact ⟨h2, h3⟩
          | finishThenOk =>
            simp only [hd0] at h
            obtain ⟨-, h2, h3, -⟩ := runTail_proj hk _ _ r h
            exact ⟨h2, h3⟩
          | fault =>
            simp only [hd0] at h
            injection h with h
            subst h
            rw [runExcept_timerPasses, runExcept_loopCalls]
            exact ⟨rfl, rfl⟩

/-- Unfolding lemma for one `while`-condition check of `runLoop`. -/
theorem runLoop_succ (tf : Nat → Bool) (lp : Nat → HookOutcome)
    (fuel i passes loops : Nat) (finished : Bool) :
    runLoop tf lp (fuel + 1) i passes loops finished =
      if finished then some (LoopExit.normal passes loops)
      else if tf i then some (LoopExit.fault (passes + 1) loops)
      else
        match lp i with
        | HookOutcome.fault => some (LoopExit.fault (passes + 1) (loops + 1))
        | HookOutcome.ok => runLoop tf lp fuel (i + 1) (passes + 1) (loops + 1) false
        | HookOutcome.finishThenOk => runLoop tf lp fuel (i + 1) (passes + 1) (loops + 1) true :=
  rfl

/-- If the `loop` hook runs `m` clean iterations from index `j` and calls
`finish()` on iteration `j + m`, the while loop exits normally after `m + 1`
further body executions (given enough fuel). -/
theorem runLoop_finish_at (tf : Nat → Bool) (lp : Nat → HookOutcome) (m : Nat) :
    ∀ (fuel j passes loops : Nat),
      (∀ i, i < m → tf (j + i) = false ∧ lp (j + i) = HookOutcome.ok) →
      tf (j + m) = false →
      lp (j + m) = HookOutcome.finishThenOk →
      m + 2 ≤ fuel →
      runLoop tf lp fuel j passes loops false =
        some (LoopExit.normal (passes + m + 1) (loops + m + 1)) := by
  induction m with
  | zero =>
    intro fuel j passes loops _ htf hfin hfuel
    obtain ⟨f, rfl⟩ : ∃ f, fuel = f + 1 + 1 := ⟨fuel - 2, by omega⟩
    rw [Nat.add_zero] at htf hfin
    simp [runLoop_succ, htf, hfin]
  | succ m ih =>
    intro fuel j passes loops hok htf hfin hfuel
    obtain ⟨f, rfl⟩ : ∃ f, fuel = f + 1 := ⟨fuel - 1, by omega⟩
    have h0 := hok 0 (by omega)
    rw [Nat.add_zero] at h0
    have step := ih f (j + 1) (passes + 1) (loops + 1)
      (fun i hi => by
        have := hok (i + 1) (by omega)
        rwa [show j + (i + 1) = j + 1 + i by omega] at this)
      (by rwa [show j + 1 + m = j + (m + 1) by omega])
      (by rwa [show j + 1 + m = j + (m + 1) by omega])
      (by omega)
    rw [runLoop_succ]
    simp only [h0.1, h0.2, step]
    have h1 : passes + 1 + m + 1 = passes + (m + 1) + 1 := by omega
    have h2 : loops + 1 + m + 1 = loops + (m + 1) + 1 := by omega
    rw [h1, h2]
    simp
theorem Timer.step_running (t : Timer) (now : Int) :
    (Timer.step t now).running = t.running := by
  simp only [Timer.step, Timer.update]
  split
  · split <;> rfl
  · rfl

theorem Timer.step_paused (t : Timer) (now : Int) :
    (Timer.step t now).paused = t.paused := by
  simp only [Timer.step, Timer.update]
  split
  · split <;> rfl
  · rfl

theorem Timer.step_period (t : Timer) (now : Int) :
    (Timer.step t now).period = t.period := by
  simp only [Timer.step, Timer.update]
  split
  · split <;> rfl
  · rfl

/-- Content of `Timer.step` when the timer fires (simulated zero-time
callback, so `duration = after - now = 0`). -/
theorem Timer.step_fire (t : Timer) (now : Int)
    (h : t.running = true ∧ t.paused = false)
    (hc : t.duration + (now - t.before) ≥ t.period * 1000000) :
    (Timer.step t now).duration = 0 ∧
      (Timer.step t now).trigger_count = t.trigger_count + 1 ∧
      (Timer.step t now).before = now := by
  simp only [Timer.step, Timer.update]
  rw [if_pos h, if_pos hc]
  exact ⟨sub_self now, rfl, rfl⟩

/-- Content of `Timer.step` when the timer does not fire. -/
theorem Timer.step_nofire (t : Timer) (now : Int)
    (h : t.running = true ∧ t.paused = false)
    (hc : ¬ t.duration + (now - t.before) ≥ t.period * 1000000) :
    (Timer.step t now).duration = t.duration + (now - t.before) ∧
      (Timer.step t now).trigger_count = t.trigger_count ∧
      (Timer.step t now).before = now := by
  simp only [Timer.step, Timer.update]
  rw [if_pos h, if_neg hc]
  exact ⟨rfl, rfl, rfl⟩

/-- Timer drive invariant: while running and unpaused, the accumulator stays
nonnegative and each fire consumes at least one whole period of the total
simulated elapsed time (overshoot and callback time are discarded by
`duration = after - now`). -/
theorem drive_fires_bound (P : Int) :
    ∀ (ds : List Int) (t : Timer) (clock : Int),
      t.running = true → t.paused = false → t.period = P →
      t.before = clock → 0 ≤ t.duration → (∀ d ∈ ds, 0 ≤ d) →
      0 ≤ (Timer.drive t clock ds).duration ∧
        (Timer.drive t clock ds).duration
            + (((Timer.drive t clock ds).trigger_count : Int) - (t.trigger_count : Int))
              * (P * 1000000)
          ≤ t.duration + ds.sum ∧
        t.trigger_count ≤ (Timer.drive t clock ds).trigger_count := by
  intro ds
  induction ds with
  | nil =>
    intro t clock _ _ _ _ hd _
    simp only [Timer.drive, List.sum_nil]
    exact ⟨hd, by simp, le_refl _⟩
  | cons d ds ih =>
    intro t clock h1 h2 hp hb hd hds
    have hd0 : 0 ≤ d := hds d (List.mem_cons_self d ds)
    have hds' : ∀ x ∈ ds, 0 ≤ x := fun x hx => hds x (List.mem_cons_of_mem d hx)
    have hdrive : Timer.drive t clock (d :: ds) =
        Timer.drive (Timer.step t (clock + d)) (clock + d) ds := rfl
    have hcd : clock + d - clock = d := by ring
    rw [hdrive, List.sum_cons]
    by_cases hc : t.duration + (clock + d - t.before) ≥ t.period * 1000000
    · obtain ⟨e1, e2, e3⟩ := Timer.step_fire t (clock + d) ⟨h1, h2⟩ hc
      have hx := ih (Timer.step t (clock + d)) (clock + d)
        (by rw [Timer.step_running]; exact h1)
        (by rw [Timer.step_paused]; exact h2)
        (by rw [Timer.step_period]; exact hp)
        e3 (by rw [e1]) hds'
      have hfire : P * 1000000 ≤ t.duration + d := by
        rw [hb, hcd, hp] at hc
        exact hc
      refine ⟨hx.1, ?_, ?_⟩
      · have hx2 := hx.2.1
        rw [e1, e2] at hx2
        push_cast at hx2
        have hsplit :
            (((Timer.drive (Timer.step t (clock + d)) (clock + d) ds).trigger_count : Int)
                - (t.trigger_count : Int)) * (P * 1000000)
              = (((Timer.drive (Timer.step t (clock + d)) (clock + d) ds).trigger_count : Int)
                  - ((t.trigger_count : Int) + 1)) * (P * 1000000) + P * 1000000 := by
          ring
        rw [hsplit]
        linarith
      · have hx3 := hx.2.2
        rw [e2] at hx3
        omega
    · obtain ⟨e1, e2, e3⟩ := Timer.step_nofire t (clock + d) ⟨h1, h2⟩ hc
      have hdur : 0 ≤ t.duration + (clock + d - t.before) := by
        rw [hb, hcd]
        linarith
      have hx := ih (Timer.step t (clock + d)) (clock + d)
        (by rw [Timer.step_running]; exact h1)
        (by rw [Timer.step_paused]; exact h2)
        (by rw [Timer.step_period]; exact hp)
        e3 (by rw [e1]; exact hdur) hds'
      refine ⟨hx.1, ?_, ?_⟩
      · have hx2 := hx.2.1
        rw [e1, e2, hb, hcd] at hx2
        linarith
      · have hx3 := hx.2.2
        rw [e2] at hx3
        exact hx3

/-- Claim C1, counterexample: driving the period-1000 ms timer with four
300 ms increments yields exactly one fire, but the post-fire accumulator is
`after - now = 0`, not the overshoot 1200 ms − 1000 ms = 200000000 ns the
claim asserts. -/
theorem C1_counterexample :
    (Timer.drive scenarioTimer 0
        [300000000, 300000000, 300000000, 300000000]).trigger_count = 1 ∧
      (Timer.drive scenarioTimer 0
        [300000000, 300000000, 300000000, 300000000]).duration = 0 ∧
      (Timer.drive scenarioTimer 0
          [300000000, 300000000, 300000000, 300000000]).duration ≠
        1200000000 - 1000000000 := by
  refine ⟨by decide, by decide, by decide⟩

/-- Claim C1, amended: when `update()` fires on a running unpaused timer, the
post-fire accumulator equals the time consumed by the callback itself
(`after - now`), not the overshoot; with a zero-time callback it is 0. -/
theorem C1_amended (t : Timer) (now after : Int)
    (h1 : t.running = true) (h2 : t.paused = false)
    (hfire : t.duration + (now - t.before) ≥ t.period * 1000000) :
    (Timer.update t now after).2 = true ∧
      (Timer.update t now after).1.duration = after - now := by
  unfold Timer.update
  rw [if_pos ⟨h1, h2⟩, if_pos hfire]
  exact ⟨rfl, rfl⟩

theorem C1_witness :
    (Timer.update poisedTimer 1200000000 1200000000).2 = true ∧
      (Timer.update poisedTimer 1200000000 1200000000).1.duration =
        1200000000 - 1200000000 :=
  C1_amended poisedTimer 1200000000 1200000000 rfl rfl (by decide)

/-- Claim C2, counterexample: with period 1000 ms and four 900 ms increments
the callback fires 2 times, but `floor(total_elapsed / P) = 3600 / 1000 = 3`;
the overshoot discarded at each fire breaks the claimed chunking-independent
count. -/
theorem C2_counterexample :
    (Timer.drive scenarioTimer 0
        [900000000, 900000000, 900000000, 900000000]).trigger_count = 2 ∧
      List.sum [(900000000 : Int), 900000000, 900000000, 900000000]
          / ((1000 : Int) * 1000000) = 3 ∧
      ((Timer.drive scenarioTimer 0
            [900000000, 900000000, 900000000, 900000000]).trigger_count : Int) ≠
        List.sum [(900000000 : Int), 900000000, 900000000, 900000000]
          / ((1000 : Int) * 1000000) := by
  refine ⟨by decide, by decide, by decide⟩

/-- Claim C2, amended: for every period P > 0 and every sequence of
nonnegative simulated increments driving a freshly started timer, the number
of fires is at most `floor(total_elapsed / P)`; equality fails in general
(the exact count depends on how the elapsed time is chunked, because each
fire discards the overshoot). -/
theorem C2_amended (t : Timer) (clock : Int) (ds : List Int)
    (h1 : t.running = true) (h2 : t.paused = false) (hb : t.before = clock)
    (hdur : t.duration = 0) (htc : t.trigger_count = 0) (hP : 0 < t.period)
    (hds : ∀ d ∈ ds, 0 ≤ d) :
    ((Timer.drive t clock ds).trigger_count : Int) ≤ ds.sum / (t.period * 1000000) := by
  obtain ⟨hpos, hineq, -⟩ :=
    drive_fires_bound t.period ds t clock h1 h2 rfl hb (by rw [hdur]) hds
  have hpp : (0 : Int) < t.period * 1000000 := by positivity
  rw [Int.le_ediv_iff_mul_le hpp]
  rw [hdur, htc] at hineq
  push_cast at hineq
  linarith

theorem C2_witness :
    ((Timer.drive scenarioTimer 0 [500000000, 600000000]).trigger_count : Int) ≤
      List.sum [(500000000 : Int), 600000000] / (scenarioTimer.period * 1000000) :=
  C2_amended scenarioTimer 0 [500000000, 600000000] rfl rfl rfl rfl rfl (by decide)
    (by decide)

theorem not_mem_states_looping :
    RunStates.DEINITIALISING ∉
      ([RunStates.STARTING] ++ [RunStates.NOT_STARTED] ++ [RunStates.INITIALISING]
        ++ [RunStates.LOOPING] : List Nat) := by
  decide

theorem mem_states_deinit (l : List Nat) :
    RunStates.DEINITIALISING ∈ l ++ [RunStates.DEINITIALISING] := by
  simp

theorem mem_states_deinit2 (l : List Nat) :
    RunStates.DEINITIALISING ∈
      (l ++ [RunStates.DEINITIALISING]) ++ [RunStates.SHUTTING_DOWN] := by
  simp

/-- Claim C3, counterexample: in a fully fault-free run the sequence of
`run_state` assignments is `[2, 1, 3, 4, 5, 6]` — `startup()` re-assigns
`NOT_STARTED` after `run()` already set `STARTING`, a backward move, so the
state sequence is not monotone. -/
theorem C3_counterexample :
    (run 2 hkAllOk).map RunResult.states = some lifeSeq ∧
      forwardOnly lifeSeq = false :=
  ⟨rfl, by decide⟩

/-- Claim C3, amended: the sequence of states assigned during any `run()` is
always a prefix of `[STARTING, NOT_STARTED, INITIALISING, LOOPING,
DEINITIALISING, SHUTTING_DOWN]` — forward-only except for the single
backward re-initialisation `STARTING -> NOT_STARTED` performed by the
bootstrap phase. -/
theorem C3_amended (fuel : Nat) (hk : Hooks) (r : RunResult)
    (h : run fuel hk = some r) :
    ∃ n, r.states = lifeSeq.take n := by
  simp only [run] at h
  by_cases hsf : hk.startupFaults = true
  · rw [if_pos hsf] at h
    injection h with h
    subst h
    refine ⟨1, ?_⟩
    rw [runExcept_states]
    rfl
  · rw [if_neg hsf] at h
    by_cases hi : hk.init = HookOutcome.fault
    · rw [if_pos hi] at h
      injection h with h
      subst h
      refine ⟨3, ?_⟩
      rw [runExcept_states]
      rfl
    · rw [if_neg hi] at h
      cases hrl : runLoop hk.timersFault hk.loop fuel 0 0 0
          (decide (hk.init = HookOutcome.finishThenOk)) with
      | none =>
        rw [hrl] at h
        exact absurd h (by simp)
      | some le =>
        cases le with
        | fault passes loops =>
          simp only [hrl] at h
          injection h with h
          subst h
          refine ⟨4, ?_⟩
          rw [runExcept_states]
          rfl
        | normal passes loops =>
          simp only [hrl] at h
          cases hd0 : hk.deinit 0 with
          | fault =>
            simp only [hd0] at h
            injection h with h
            subst h
            refine ⟨5, ?_⟩
            rw [runExcept_states]
            rfl
          | ok =>
            simp only [hd0] at h
            obtain ⟨h1, -⟩ := runTail_proj hk _ _ r h
            exact ⟨6, by rw [h1]; rfl⟩
          | finishThenOk =>
            simp only [hd0] at h
            obtain ⟨h1, -⟩ := runTail_proj hk _ _ r h
            exact ⟨6, by rw [h1]; rfl⟩

theorem C3_witness : ∃ n, C4res.states = lifeSeq.take n :=
  C3_amended 1 hkStartupFault C4res rfl

/-- Claim C4: a fault in the bootstrap collaborator (raised while
`run_state = STARTING`, i.e. before the trailing plain assignments of
`startup()`) aborts the run with exit code `STARTING` (= 2), the `init`
hook is never invoked, and the best-effort cleanup `deinit()` still runs. -/
theorem C4_confirmed (fuel : Nat) (hk : Hooks) (r : RunResult)
    (hsf : hk.startupFaults = true) (h : run fuel hk = some r) :
    r.exit_code = some RunStates.STARTING ∧ r.deinitCalls = 1 ∧ r.initCalls = 0 := by
  simp only [run] at h
  rw [if_pos hsf] at h
  injection h with h
  subst h
  refine ⟨runExcept_exit_code hk _ _, ?_, ?_⟩
  · rw [runExcept_deinitCalls hk _ _ (by decide)]
  · rw [runExcept_initCalls]

theorem C4_witness :
    run 1 hkStartupFault = some C4res ∧
      (C4res.exit_code = some RunStates.STARTING ∧ C4res.deinitCalls = 1 ∧
        C4res.initCalls = 0) :=
  ⟨rfl, C4_confirmed 1 hkStartupFault C4res rfl rfl⟩

/-- Claim C5, counterexample: in a so-far-fault-free run where `shutdown()`
raises, the fault is caught by `run()`'s handler — exit code is set to
`SHUTTING_DOWN` and nothing propagates to the caller (`raised = false`),
contradicting the claim that teardown faults propagate. -/
theorem C5_counterexample :
    (run 2 hkShutdownFault).map
        (fun r => (r.exit_code, r.raised, r.shutdownCalls, r.states)) =
      some (some RunStates.SHUTTING_DOWN, false, 1, lifeSeq) :=
  rfl

/-- Claim C5, amended: teardown faults in a run that reached DEINITIALISING
are caught by `run()`'s handler. A fault in the normal `deinit()` call sets
exit code DEINITIALISING and triggers the cleanup `deinit()` pass, and only a
second fault from that cleanup pass escapes to the caller; a fault in
`shutdown()` sets exit code SHUTTING_DOWN and `run()` returns normally. -/
theorem C5_amended (fuel : Nat) (hk : Hooks) (r : RunResult)
    (h : run fuel hk = some r) (hreach : RunStates.DEINITIALISING ∈ r.states) :
    (hk.deinit 0 = HookOutcome.fault →
        r.exit_code = some RunStates.DEINITIALISING ∧ r.deinitCalls = 2 ∧
          r.raised = decide (hk.deinit 1 = HookOutcome.fault)) ∧
      (hk.deinit 0 ≠ HookOutcome.fault → hk.shutdownFaults = true →
        r.exit_code = some RunStates.SHUTTING_DOWN ∧ r.raised = false) := by
  simp only [run] at h
  by_cases hsf : hk.startupFaults = true
  · rw [if_pos hsf] at h
    injection h with h
    subst h
    rw [runExcept_states] at hreach
    exact absurd hreach (by decide)
  · rw [if_neg hsf] at h
    by_cases hi : hk.init = HookOutcome.fault
    · rw [if_pos hi] at h
      injection h with h
      subst h
      rw [runExcept_states] at hreach
      exact absurd hreach (by decide)
    · rw [if_neg hi] at h
      cases hrl : runLoop hk.timersFault hk.loop fuel 0 0 0
          (decide (hk.init = HookOutcome.finishThenOk)) with
      | none =>
        rw [hrl] at h
        exact absurd h (by simp)
      | some le =>
        cases le with
        | fault passes loops =>
          simp only [hrl] at h
          injection h with h
          subst h
          rw [runExcept_states] at hreach
          exact absurd hreach not_mem_states_looping
        | normal passes loops =>
          simp only [hrl] at h
          cases hd0 : hk.deinit 0 with
          | fault =>
            simp only [hd0] at h
            injection h with h
            subst h
            constructor
            · intro _
              refine ⟨runExcept_exit_code hk _ _, ?_, ?_⟩
              · rw [runExcept_deinitCalls hk _ _ (by decide)]
              · rw [runExcept_raised hk _ _ (by decide)]
            · intro hne _
              exact absurd rfl hne
          | ok =>
            simp only [hd0] at h
            obtain ⟨-, -, -, -, -, -, hfa, -⟩ := runTail_proj hk _ _ r h
            constructor
            · intro hf
              exact absurd hf (by decide)
            · intro _ hsd
              exact hfa hsd
          | finishThenOk =>
            simp only [hd0] at h
            obtain ⟨-, -, -, -, -, -, hfa, -⟩ := runTail_proj hk _ _ r h
            constructor
            · intro hf
              exact absurd hf (by decide)
            · intro _ hsd
              exact hfa hsd

theorem C5_witness :
    C5res.exit_code = some RunStates.SHUTTING_DOWN ∧ C5res.raised = false :=
  (C5_amended 2 hkShutdownFault C5res rfl (by decide)).2 (by decide) rfl

/-- Claim C6, counterexample: calling `finish()` inside the `init` hook makes
the LOOPING phase execute zero iterations, whereas the identical hooks
without that call execute one — so `finish()` during `init()` does affect
loop continuation. -/
theorem C6_counterexample :
    (run 3 hkFinishInInit).map (fun r => (r.timerPasses, r.loopCalls)) = some (0, 0) ∧
      (run 3 hkAllOk).map (fun r => (r.timerPasses, r.loopCalls)) = some (1, 1) ∧
      (0 : Nat) ≠ 1 :=
  ⟨rfl, rfl, by decide⟩

/-- Claim C6, amended: `finish()` during `deinit()` has no effect on loop
continuation (the loop already ended), but `finish()` during `init()` makes
the LOOPING phase execute zero iterations, because the `finished` flag is
read at the top of the `while` loop. -/
theorem C6_amended (fuel : Nat) (hk : Hooks) :
    (hk.init = HookOutcome.finishThenOk →
        ∀ r, run fuel hk = some r → r.timerPasses = 0 ∧ r.loopCalls = 0) ∧
      (∀ (d2 : Nat → HookOutcome) (r r2 : RunResult),
        run fuel hk = some r → run fuel { hk with deinit := d2 } = some r2 →
        r.timerPasses = r2.timerPasses ∧ r.loopCalls = r2.loopCalls) := by
  constructor
  · intro hfin r h
    obtain ⟨h1, h2⟩ := run_loopCounts fuel hk r h
    have hz : loopCounts hk fuel = (0, 0) := by
      unfold loopCounts
      by_cases hsf : hk.startupFaults = true
      · rw [if_pos hsf]
      · rw [if_neg hsf, if_neg (by rw [hfin]; decide)]
        rw [hfin]
        cases fuel with
        | zero => rfl
        | succ f =>
          rw [runLoop_succ]
          simp
    rw [hz] at h1 h2
    exact ⟨h1, h2⟩
  · intro d2 r r2 h h2
    obtain ⟨p1, l1⟩ := run_loopCounts fuel hk r h
    obtain ⟨p2, l2⟩ := run_loopCounts fuel { hk with deinit := d2 } r2 h2
    have hsame : loopCounts { hk with deinit := d2 } fuel = loopCounts hk fuel := rfl
    rw [hsame] at p2 l2
    exact ⟨p1.trans p2.symm, l1.trans l2.symm⟩

theorem C6_witness :
    (C6res.timerPasses = 0 ∧ C6res.loopCalls = 0) ∧
      (C6res.timerPasses = C6res.timerPasses ∧ C6res.loopCalls = C6res.loopCalls) :=
  ⟨(C6_amended 3 hkFinishInInit).1 rfl C6res rfl,
    (C6_amended 3 hkFinishInInit).2 (fun _ => HookOutcome.finishThenOk) C6res C6res rfl rfl⟩

/-- Claim C7: registering a timer under a name that is already present (and
non-empty) returns `None`, does not throw (the operation is total), and
leaves the whole timer collection — hence the existing timer and its entire
state — and the name counter unchanged. -/
theorem C7_confirmed (st : AppTimers) (period : Int) (cb : Nat) (nm : String)
    (rtcFlag : Bool) (hnm : nm ≠ "")
    (hmem : (dlookup nm st.timers).isSome = true) :
    addTimer st period cb (some nm) rtcFlag = (st, none) := by
  unfold addTimer
  rw [if_neg]
  rintro (hcond | hcond)
  · simp [truthy, hnm] at hcond
  · simp only [Option.getD_some] at hcond
    rw [hcond] at hmem
    simp at hmem

theorem C7_witness :
    addTimer regState 250 9 (some "A") false = (regState, none) :=
  C7_confirmed regState 250 9 "A" false (by decide) (by decide)

/-- Looking up the key just written by a dict assignment yields the new
value. -/
theorem dlookup_dictInsert {α : Type} (k : String) (v : α) :
    ∀ l : List (String × α), dlookup k (dictInsert k v l) = some v := by
  intro l
  induction l with
  | nil => simp [dictInsert, dlookup]
  | cons p rest ih =>
    obtain ⟨k2, v2⟩ := p
    by_cases hk2 : k2 = k
    · simp [dictInsert, dlookup, hk2]
    · simp [dictInsert, dlookup, hk2, ih]

/-- Claim C10: registration with the name omitted always succeeds — the
collision check is skipped, the timer is stored under `"Timer-<counter>"`,
the counter is incremented, and an existing entry under that auto-generated
name is silently overwritten. -/
theorem C10_confirmed (st : AppTimers) (period : Int) (cb : Nat) (rtcFlag : Bool)
    (told : Timer)
    (hmem : dlookup ("Timer-" ++ toString st.name_counter) st.timers = some told) :
    ∃ tnew : Timer,
      addTimer st period cb none rtcFlag =
        ({ timers := dictInsert ("Timer-" ++ toString st.name_counter) tnew st.timers
           name_counter := st.name_counter + 1 }, some tnew) ∧
        tnew.name = "Timer-" ++ toString st.name_counter ∧
        dlookup ("Timer-" ++ toString st.name_counter)
          (addTimer st period cb none rtcFlag).1.timers = some tnew := by
  have heq : addTimer st period cb none rtcFlag =
      ({ timers := dictInsert ("Timer-" ++ toString st.name_counter)
            (Timer.init period cb none rtcFlag st.name_counter).1 st.timers
         name_counter := st.name_counter + 1 },
        some (Timer.init period cb none rtcFlag st.name_counter).1) := by
    have hcond : truthy none = false ∨
        dlookup ((none : Option String).getD "") st.timers = none :=
      Or.inl rfl
    unfold addTimer
    rw [if_pos hcond]
    rfl
  refine ⟨(Timer.init period cb none rtcFlag st.name_counter).1, heq, rfl, ?_⟩
  rw [heq]
  exact dlookup_dictInsert _ _ st.timers

theorem C10_witness :
    ∃ tnew : Timer,
      addTimer autoState 250 9 none false =
        ({ timers := dictInsert ("Timer-" ++ toString autoState.name_counter) tnew
              autoState.timers
           name_counter := autoState.name_counter + 1 }, some tnew) ∧
        tnew.name = "Timer-" ++ toString autoState.name_counter ∧
        dlookup ("Timer-" ++ toString autoState.name_counter)
          (addTimer autoState 250 9 none false).1.timers = some tnew :=
  C10_confirmed autoState 250 9 false regTimerA (by decide)

/-- Claim C8: a fault raised during the LOOPING phase (from a timer callback
in `update_timers` or from the `loop` hook) sets the exit code to the
LOOPING ordinal and invokes the `deinit` hook exactly once. -/
theorem C8_confirmed (fuel : Nat) (hk : Hooks) (r : RunResult)
    (h : run fuel hk = some r)
    (hloop : RunStates.LOOPING ∈ r.states)
    (hnd : RunStates.DEINITIALISING ∉ r.states) :
    r.exit_code = some RunStates.LOOPING ∧ r.deinitCalls = 1 := by
  simp only [run] at h
  by_cases hsf : hk.startupFaults = true
  · rw [if_pos hsf] at h
    injection h with h
    subst h
    rw [runExcept_states] at hloop
    exact absurd hloop (by decide)
  · rw [if_neg hsf] at h
    by_cases hi : hk.init = HookOutcome.fault
    · rw [if_pos hi] at h
      injection h with h
      subst h
      rw [runExcept_states] at hloop
      exact absurd hloop (by decide)
    · rw [if_neg hi] at h
      cases hrl : runLoop hk.timersFault hk.loop fuel 0 0 0
          (decide (hk.init = HookOutcome.finishThenOk)) with
      | none =>
        rw [hrl] at h
        exact absurd h (by simp)
      | some le =>
        cases le with
        | fault passes loops =>
          simp only [hrl] at h
          injection h with h
          subst h
          refine ⟨runExcept_exit_code hk _ _, ?_⟩
          rw [runExcept_deinitCalls hk _ _ (by decide)]
        | normal passes loops =>
          simp only [hrl] at h
          cases hd0 : hk.deinit 0 with
          | fault =>
            simp only [hd0] at h
            injection h with h
            subst h
            rw [runExcept_states] at hnd
            exact (hnd (mem_states_deinit _)).elim
          | ok =>
            simp only [hd0] at h
            obtain ⟨h1, -⟩ := runTail_proj hk _ _ r h
            rw [h1] at hnd
            exact (hnd (mem_states_deinit2 _)).elim
          | finishThenOk =>
            simp only [hd0] at h
            obtain ⟨h1, -⟩ := runTail_proj hk _ _ r h
            rw [h1] at hnd
            exact (hnd (mem_states_deinit2 _)).elim

theorem C8_witness :
    run 2 hkLoopFault = some C8res ∧
      (C8res.exit_code = some RunStates.LOOPING ∧ C8res.deinitCalls = 1) :=
  ⟨rfl, C8_confirmed 2 hkLoopFault C8res rfl (by decide) (by decide)⟩

/-- Claim C9: if the `loop` hook calls `finish()` on its N-th invocation
(1-based) and nothing faults, the timer-update pass and the `loop` hook each
execute exactly N times, the current iteration completes, and the run
proceeds to DEINITIALISING. -/
theorem C9_confirmed (fuel : Nat) (hk : Hooks) (r : RunResult) (N : Nat)
    (hN : 1 ≤ N)
    (hsf : hk.startupFaults = false) (hi : hk.init = HookOutcome.ok)
    (htf : ∀ i, i < N → hk.timersFault i = false)
    (hl : ∀ i, i < N - 1 → hk.loop i = HookOutcome.ok)
    (hfin : hk.loop (N - 1) = HookOutcome.finishThenOk)
    (hfuel : N + 1 ≤ fuel)
    (h : run fuel hk = some r) :
    r.timerPasses = N ∧ r.loopCalls = N ∧ RunStates.DEINITIALISING ∈ r.states := by
  have hrl : runLoop hk.timersFault hk.loop fuel 0 0 0
      (decide (hk.init = HookOutcome.finishThenOk)) =
      some (LoopExit.normal N N) := by
    have hfa := runLoop_finish_at hk.timersFault hk.loop (N - 1) fuel 0 0 0
      (fun i hi2 => by
        rw [Nat.zero_add]
        exact ⟨htf i (by omega), hl i hi2⟩)
      (by rw [Nat.zero_add]; exact htf (N - 1) (by omega))
      (by rw [Nat.zero_add]; exact hfin)
      (by omega)
    have hNN : 0 + (N - 1) + 1 = N := by omega
    rw [hNN] at hfa
    rw [hi]
    exact hfa
  simp only [run] at h
  rw [if_neg (by simp [hsf])] at h
  rw [if_neg (by simp [hi])] at h
  simp only [hrl] at h
  cases hd0 : hk.deinit 0 with
  | fault =>
    simp only [hd0] at h
    injection h with h
    subst h
    refine ⟨?_, ?_, ?_⟩
    · rw [runExcept_timerPasses]
    · rw [runExcept_loopCalls]
    · rw [runExcept_states]
      exact mem_states_deinit _
  | ok =>
    simp only [hd0] at h
    obtain ⟨h1, h2, h3, -⟩ := runTail_proj hk _ _ r h
    refine ⟨h2, h3, ?_⟩
    rw [h1]
    exact mem_states_deinit2 _
  | finishThenOk =>
    simp only [hd0] at h
    obtain ⟨h1, h2, h3, -⟩ := runTail_proj hk _ _ r h
    refine ⟨h2, h3, ?_⟩
    rw [h1]
    exact mem_states_deinit2 _

theorem C9_witness :
    C9res.timerPasses = 2 ∧ C9res.loopCalls = 2 ∧
      RunStates.DEINITIALISING ∈ C9res.states :=
  C9_confirmed 4 hkFinishAtTwo C9res 2 (by decide) rfl rfl
    (fun _ _ => rfl)
    (fun i hi2 => by
      have hz : i = 0 := by omega
      subst hz
      rfl)
    rfl (by decide) rfl

end MinskyBot
